import Mathlib

/-!
Verification development for the PubMed reference matcher
(`pubmed_parser.py`).  The Python source is shallowly embedded: text is
`List Char`, the regex idioms used by the source are translated into
executable scanning functions with Python's leftmost-match and
backtracking behaviour for the concrete patterns that occur, and the
external HTTP capability (`esearch` / `esummary`) is an explicit
environment of pure functions whose failure constructor models a raised
exception at the call site.  Character classes follow the ASCII reading
of the Python patterns.
-/

set_option maxRecDepth 4000

/-- Python whitespace characters as recognised by `str.strip` and `\s`. -/
def isPySpace (c : Char) : Bool :=
  c = ' ' || c = '\t' || c = '\n' || c = '\r' || c = '\x0b' || c = '\x0c'

/-- ASCII decimal digit, the `\d` class. -/
def isPyDigit (c : Char) : Bool :=
  '0' ≤ c && c ≤ '9'

/-- ASCII lowercase letter, the `[a-z]` class. -/
def isPyLower (c : Char) : Bool :=
  'a' ≤ c && c ≤ 'z'

/-- ASCII uppercase letter, the `[A-Z]` class. -/
def isPyUpper (c : Char) : Bool :=
  'A' ≤ c && c ≤ 'Z'

/-- ASCII letter, the `[A-Za-z]` class. -/
def isAsciiAlpha (c : Char) : Bool :=
  isPyLower c || isPyUpper c

/-- Word character, the `\w` class (ASCII reading). -/
def isWordChar (c : Char) : Bool :=
  isAsciiAlpha c || isPyDigit c || c = '_'

/-- Python `str.strip`: drop leading and trailing whitespace. -/
def pyStrip (s : List Char) : List Char :=
  ((s.dropWhile isPySpace).reverse.dropWhile isPySpace).reverse

/-- Python `str.lower` restricted to ASCII letters. -/
def toLowerList (s : List Char) : List Char :=
  s.map Char.toLower

/-- Helper for `splitLines`: accumulates the current line (reversed). -/
def splitLinesAux (cur : List Char) : List Char → List (List Char)
  | [] => if cur.isEmpty then [] else [cur.reverse]
  | '\r' :: '\n' :: rest => cur.reverse :: splitLinesAux [] rest
  | '\r' :: rest => cur.reverse :: splitLinesAux [] rest
  | '\n' :: rest => cur.reverse :: splitLinesAux [] rest
  | c :: rest => splitLinesAux (c :: cur) rest

/-- Python `str.splitlines` (common line boundaries; no trailing empty line). -/
def splitLines (s : List Char) : List (List Char) :=
  splitLinesAux [] s

/-- Helper for `splitOnNl`. -/
def splitOnNlAux (cur : List Char) : List Char → List (List Char)
  | [] => [cur.reverse]
  | c :: rest =>
      if c = '\n' then cur.reverse :: splitOnNlAux [] rest
      else splitOnNlAux (c :: cur) rest

/-- Python `str.split` with separator a newline: keeps empty pieces. -/
def splitOnNl (s : List Char) : List (List Char) :=
  splitOnNlAux [] s

/-- Helper for `tokenizeWords`: accumulates the current token (reversed). -/
def splitWordsAux (cur : List Char) : List Char → List (List Char)
  | [] => if cur.isEmpty then [] else [cur.reverse]
  | c :: rest =>
      if isWordChar c then splitWordsAux (c :: cur) rest
      else if cur.isEmpty then splitWordsAux [] rest
      else cur.reverse :: splitWordsAux [] rest

/-- Python `re.findall` of the pattern matching one-or-more word characters:
the maximal runs of word characters, in order. -/
def tokenizeWords (s : List Char) : List (List Char) :=
  splitWordsAux [] s

/-- Python `re.sub` replacing each hyphen-newline pair by a hyphen
(source line 140): the line break is dropped, the hyphen is kept, and
scanning resumes after the replaced pair. -/
def subHNL : List Char → List Char
  | [] => []
  | [c] => [c]
  | c :: d :: rest =>
      if c = '-' && d = '\n' then c :: subHNL rest
      else c :: subHNL (d :: rest)

/-- Python `re.sub` replacing lowercase-newline-lowercase by
lowercase-space-lowercase (source line 141); scanning resumes after the
replaced span. -/
def subLNL : List Char → List Char
  | a :: b :: c :: rest =>
      if isPyLower a && b = '\n' && isPyLower c then a :: ' ' :: c :: subLNL rest
      else a :: subLNL (b :: c :: rest)
  | l => l

/-- The heading labels dropped by the segmenter (source line 137). -/
def refHeadings : List (List Char) :=
  ["references".data, "citations".data, "literature cited".data, "bibliography".data]

/-- Drop a leading heading line (source lines 136-138): when the first
line of the stripped text is a known label, keep the remaining lines
joined by newlines, else keep the text unchanged. -/
def dropHeading (s : List Char) : List Char :=
  match splitLines (pyStrip s) with
  | [] => s
  | l0 :: rest =>
      if refHeadings.contains (toLowerList (pyStrip l0)) then
        List.intercalate ['\n'] rest
      else s

/-- The text on which the ordinal pattern is run (source lines 136-141):
heading dropped, hyphen-newline pairs joined, soft-wrapped
lowercase-to-lowercase breaks joined by a space. -/
def normalizeText (text : String) : List Char :=
  subLNL (subHNL (dropHeading text.data))

/-- The lookahead of the ordinal pattern (source line 142): a newline
followed by digits, an optional period and at least one whitespace
character, or the end of the text (also just before a final newline,
Python's reading of the dollar anchor without MULTILINE). -/
def lookNlDigits : List Char → Bool
  | '\n' :: rest =>
      let ds := rest.takeWhile isPyDigit
      if ds.isEmpty then false
      else
        let r1 := rest.dropWhile isPyDigit
        let r2 := match r1 with
          | '.' :: t => t
          | _ => r1
        match r2 with
        | c :: _ => isPySpace c
        | [] => false
  | _ => false

/-- Full lookahead test at a suffix of the text. -/
def lookaheadOk (s : List Char) : Bool :=
  match s with
  | [] => true
  | ['\n'] => true
  | _ => lookNlDigits s

/-- The lazy body of the ordinal pattern: extend one character at a time
until the lookahead holds (it always holds at the end of the text). -/
def scanBody : List Char → List Char × List Char
  | [] => ([], [])
  | c :: rest =>
      if lookaheadOk (c :: rest) then ([], c :: rest)
      else
        let p := scanBody rest
        (c :: p.1, p.2)

/-- Attempt the ordinal entry at a position where the leading anchor
(start of text or a consumed newline) already matched: greedy digits, an
optional period, at least one whitespace character (greedy), then the
lazy body.  Returns the two capture groups and the rest of the text. -/
def matchEntry (s : List Char) : Option ((List Char × List Char) × List Char) :=
  let ds := s.takeWhile isPyDigit
  if ds.isEmpty then none
  else
    let r1 := s.dropWhile isPyDigit
    let r2 := match r1 with
      | '.' :: t => t
      | _ => r1
    let ws := r2.takeWhile isPySpace
    if ws.isEmpty then none
    else
      let p := scanBody (r2.dropWhile isPySpace)
      some ((ds, p.1), p.2)

/-- Scan positions left to right for a newline starting an ordinal entry
(the fuel is the length of the scanned text; every step consumes at
least one character, so it never runs out at the given call sites). -/
def scanFrom : Nat → List Char → List (List Char × List Char)
  | 0, _ => []
  | _ + 1, [] => []
  | fuel + 1, c :: rest =>
      if c = '\n' then
        match matchEntry rest with
        | some (m, r) => m :: scanFrom fuel r
        | none => scanFrom fuel rest
      else scanFrom fuel rest

/-- Python `re.findall` of the ordinal pattern of source line 142 with
DOTALL: the start-of-text alternative is tried at position zero, after
which scanning looks for newline-anchored entries. -/
def findOrdinal (s : List Char) : List (List Char × List Char) :=
  match matchEntry s with
  | some (m, r) => m :: scanFrom r.length r
  | none => scanFrom s.length s

/-- Sequential numbering of the fallback parse (source line 153):
labels are consecutive decimal numbers starting at the given one. -/
def numberRefs (n : Nat) : List (List Char) → List (String × String)
  | [] => []
  | r :: rest => (toString n, String.mk r) :: numberRefs (n + 1) rest

/-- The reference segmenter (source lines 135-153).  Primary parse: the
ordinal-delimited entries with embedded newlines collapsed to spaces and
bodies stripped.  Fallback parse when no entry is found: every non-blank
line, stripped, numbered sequentially from 1. -/
def extract_references (text : String) : List (String × String) :=
  let t := normalizeText text
  let ms := findOrdinal t
  if ms.isEmpty then
    numberRefs 1 (((splitOnNl t).map pyStrip).filter (fun r => !r.isEmpty))
  else
    ms.map (fun m =>
      (String.mk m.1, String.mk (pyStrip (m.2.map (fun ch => if ch = '\n' then ' ' else ch)))))

/-- Attempt the DOI pattern (source line 12) at one position: the
literal "10.", four to nine digits (greedy; the backtracked shorter
digit counts can never expose the required slash), a slash, then a
maximal non-whitespace run of at least one character. -/
def doiAt : List Char → Option (List Char)
  | '1' :: '0' :: '.' :: rest =>
      let ds := rest.takeWhile isPyDigit
      if 4 ≤ ds.length && ds.length ≤ 9 then
        match rest.dropWhile isPyDigit with
        | '/' :: r2 =>
            let tl := r2.takeWhile (fun c => !isPySpace c)
            if tl.isEmpty then none
            else some ('1' :: '0' :: '.' :: (ds ++ '/' :: tl))
        | _ => none
      else none
  | _ => none

/-- Python `re.search` of the DOI pattern: leftmost match. -/
def findDOI : List Char → Option (List Char)
  | [] => none
  | c :: rest =>
      match doiAt (c :: rest) with
      | some d => some d
      | none => findDOI rest

/-- Four consecutive digits at one position (source line 20). -/
def fourDigitsAt : List Char → Option (List Char)
  | a :: b :: c :: d :: _ =>
      if isPyDigit a && isPyDigit b && isPyDigit c && isPyDigit d then some [a, b, c, d]
      else none
  | _ => none

/-- Python `re.search` of the year pattern: leftmost four-digit run. -/
def findYear : List Char → Option (List Char)
  | [] => none
  | c :: rest =>
      match fourDigitsAt (c :: rest) with
      | some y => some y
      | none => findYear rest

/-- The first-author pattern (source line 23): the run of letters and
hyphens anchored at the very start of the text. -/
def firstAuthorRun (s : List Char) : Option (List Char) :=
  let run := s.takeWhile (fun c => isAsciiAlpha c || c = '-')
  if run.isEmpty then none else some run

/-- Terminator of the title pattern (source line 16): a period, a
whitespace run followed by an uppercase letter, or the end of the text
(also just before a final newline). -/
def titleTermOk : List Char → Bool
  | [] => true
  | ['\n'] => true
  | '.' :: _ => true
  | s =>
      let w := s.takeWhile isPySpace
      if w.isEmpty then false
      else
        match s.dropWhile isPySpace with
        | c :: _ => isPyUpper c
        | [] => false

/-- The lazy title group: at least one non-period character, extended
one character at a time until the terminator holds. -/
def titleBody : List Char → Option (List Char)
  | [] => none
  | c :: rest =>
      if c = '.' then none
      else if titleTermOk rest then some [c]
      else
        match titleBody rest with
        | some t => some (c :: t)
        | none => none

/-- Backtracking of the greedy whitespace run after the title delimiter:
try the longest whitespace prefix first, then shorter ones. -/
def titleWs (rest : List Char) : Nat → Option (List Char)
  | 0 => none
  | k + 1 =>
      match titleBody (rest.drop (k + 1)) with
      | some t => some t
      | none => titleWs rest k

/-- Attempt the title pattern at one position: a period or colon
delimiter, at least one whitespace character, then the lazy group. -/
def titleAt : List Char → Option (List Char)
  | [] => none
  | c :: rest =>
      if c = '.' || c = ':' then titleWs rest (rest.takeWhile isPySpace).length
      else none

/-- Python `re.search` of the title pattern: leftmost match. -/
def findTitle : List Char → Option (List Char)
  | [] => none
  | c :: rest =>
      match titleAt (c :: rest) with
      | some t => some t
      | none => findTitle rest

/-- Characters allowed in the journal group body (source line 26). -/
def isJournalClass (c : Char) : Bool :=
  isAsciiAlpha c || isPySpace c

/-- The volume/issue/page punctuation class of the journal pattern. -/
def volPunct (c : Char) : Bool :=
  isPyDigit c || c = ';' || c = '(' || c = ')' || c = ':'

/-- Suffix required after the journal group: a whitespace run followed
by four digits, or a whitespace run followed by at least one
volume/issue/page character. -/
def journalSuffixOk (s : List Char) : Bool :=
  let w := s.takeWhile isPySpace
  if w.isEmpty then false
  else
    let r := s.dropWhile isPySpace
    (match r with
     | a :: b :: c :: d :: _ => isPyDigit a && isPyDigit b && isPyDigit c && isPyDigit d
     | _ => false) ||
    (match r with
     | c :: _ => volPunct c
     | [] => false)

/-- Backtracking of the greedy journal group body: keep the longest
prefix of the class run whose suffix matches. -/
def journalTryLen (c : Char) (rest : List Char) : Nat → Option (List Char)
  | 0 => none
  | k + 1 =>
      if journalSuffixOk (rest.drop (k + 1)) then some (c :: rest.take (k + 1))
      else journalTryLen c rest k

/-- Attempt the journal pattern at one position: an uppercase letter,
then a greedy letters-and-whitespace run, then the required suffix. -/
def journalAt : List Char → Option (List Char)
  | [] => none
  | c :: rest =>
      if isPyUpper c then journalTryLen c rest (rest.takeWhile isJournalClass).length
      else none

/-- Python `re.search` of the journal pattern: leftmost match. -/
def findJournal : List Char → Option (List Char)
  | [] => none
  | c :: rest =>
      match journalAt (c :: rest) with
      | some j => some j
      | none => findJournal rest

/-- The feature profile derived from one raw reference string
(source lines 11-27). -/
structure QueryProfile where
  doi : Option String
  raw_title : String
  title_words : List String
  year : String
  first_author : String
  journal : String
deriving DecidableEq

/-- Feature extraction (source lines 11-27): each field best-effort,
empty string or `none` when the pattern does not match. -/
def extractProfile (reference : String) : QueryProfile :=
  let s := reference.data
  let raw_title := pyStrip (((findTitle s).getD []))
  { doi := (findDOI s).map String.mk
    raw_title := String.mk raw_title
    title_words :=
      (tokenizeWords ((toLowerList raw_title).map (fun c => if c = '-' then ' ' else c))).map String.mk
    year := String.mk ((findYear s).getD [])
    first_author := String.mk (toLowerList ((firstAuthorRun s).getD []))
    journal := String.mk (toLowerList (pyStrip ((findJournal s).getD []))) }

/-- Result of one external HTTP call: a value, or a raised exception
(network error, non-2xx status, malformed JSON) caught at the call
site. -/
inductive NetResult (α : Type) where
  | ok : α → NetResult α
  | exc : NetResult α
deriving DecidableEq

/-- One record of the esummary response (source lines 82-105):
`articleids` is the list of (idtype, value) pairs. -/
structure SummaryRecord where
  title : String
  authors : List String
  source : String
  pubdate : String
  volume : String
  pages : String
  uid : String
  articleids : List (String × String)
deriving DecidableEq

/-- The external search capability: `esearch` takes the query term and
`retmax` and returns the identifier list, `esummary` takes an identifier
and returns the summary record (`ok none` models an empty record). -/
structure Env where
  esearch : String → Nat → NetResult (List String)
  esummary : String → NetResult (Option SummaryRecord)

/-- The accepted candidate dictionary built at source lines 111-120. -/
structure Candidate where
  pmid : String
  pmcid : String
  formatted : String
  title : String
  authors : String
  source : String
  date : String
  strategy : String
deriving DecidableEq

/-- Instrumentation of one run of `search_pubmed_api`: the esearch calls
made (query and retmax, in order), the identifier list of the successful
search, the identifier passed to esummary, and the query that produced
the identifiers. -/
structure RunLog where
  calls : List (String × Nat)
  found : List String
  fetched : Option String
  succQuery : Option String
deriving DecidableEq

/-- The heuristic strategy list (source lines 52-58), in order; a
strategy is `none` when a required feature is missing (Python string
truthiness: missing means empty). -/
def search_strategies (p : QueryProfile) : List (Option String) :=
  [ if p.raw_title ≠ "" ∧ p.first_author ≠ "" ∧ p.year ≠ "" ∧ p.journal ≠ "" then
      some (p.raw_title ++ " AND " ++ p.first_author ++ "[Author] AND " ++ p.year ++ "[Year] AND " ++ p.journal ++ "[Journal]")
    else none,
    if p.raw_title ≠ "" ∧ p.journal ≠ "" then
      some (p.raw_title ++ " AND " ++ p.journal ++ "[Journal]")
    else none,
    if p.first_author ≠ "" ∧ p.journal ≠ "" ∧ p.year ≠ "" then
      some (p.first_author ++ "[Author] AND " ++ p.journal ++ "[Journal] AND " ++ p.year ++ "[Year]")
    else none,
    if p.raw_title ≠ "" then some p.raw_title else none,
    if p.first_author ≠ "" ∧ p.year ≠ "" then
      some (p.first_author ++ "[Author] AND " ++ p.year ++ "[Year]")
    else none ]

/-- The fallback loop (source lines 60-72): skip absent strategies, call
esearch on each present one until a call returns a non-empty identifier
list; an exception or an empty list continues with the next strategy.
Returns the identifiers, the successful query, and the calls made. -/
def tryStrategies (env : Env) (retmax : Nat) :
    List (Option String) → List String × Option String × List (String × Nat)
  | [] => ([], none, [])
  | none :: rest => tryStrategies env retmax rest
  | some q :: rest =>
      match env.esearch q retmax with
      | NetResult.ok pmids =>
          if pmids.isEmpty then
            let r := tryStrategies env retmax rest
            (r.1, r.2.1, (q, retmax) :: r.2.2)
          else (pmids, some q, [(q, retmax)])
      | NetResult.exc =>
          let r := tryStrategies env retmax rest
          (r.1, r.2.1, (q, retmax) :: r.2.2)

/-- The call sequence of a first-success cascade over a query list, as
described by the specification of the strategy cascade: each query is
tried in order and the cascade stops at the first call returning a
non-empty identifier list. -/
def cascadeCalls (env : Env) (retmax : Nat) : List String → List (String × Nat)
  | [] => []
  | q :: rest =>
      match env.esearch q retmax with
      | NetResult.ok l =>
          if l.isEmpty then (q, retmax) :: cascadeCalls env retmax rest
          else [(q, retmax)]
      | NetResult.exc => (q, retmax) :: cascadeCalls env retmax rest

/-- The DOI step (source lines 31-48): when a DOI was extracted, one
esearch call with retmax 1; an exception yields the empty identifier
list.  Returns the identifiers and the call made. -/
def doiSearchPhase (env : Env) (doi : Option String) : List String × List (String × Nat) :=
  match doi with
  | some d =>
      ((match env.esearch d 1 with
        | NetResult.ok l => l
        | NetResult.exc => []), [(d, 1)])
  | none => ([], [])

/-- Identifier selection (source lines 29-72): the DOI step first; when
it yields no identifiers, the fallback loop.  Returns the identifiers,
the query that produced them, and all esearch calls in order. -/
def selectPmids (env : Env) (p : QueryProfile) (retmax : Nat) :
    List String × Option String × List (String × Nat) :=
  let dres := doiSearchPhase env p.doi
  if dres.1.isEmpty then
    let r := tryStrategies env retmax (search_strategies p)
    (r.1, r.2.1, dres.2 ++ r.2.2)
  else (dres.1, p.doi, dres.2)

/-- Python `", ".join` of the author names (source line 98). -/
def joinCommaSpace (names : List String) : String :=
  String.intercalate ", " names

/-- Python `pub_date.split(" ")[0]` (source line 103). -/
def headSplitSpace (s : String) : String :=
  String.mk (s.data.takeWhile (fun c => c ≠ ' '))

/-- First article id of type "pmc", else empty (source line 105). -/
def pmcidOf : List (String × String) → String
  | [] => ""
  | (t, v) :: rest => if t = "pmc" then v else pmcidOf rest

/-- Display truncation of the strategy label (source line 119). -/
def truncateQuery (q : String) : String :=
  if q.length > 50 then String.mk (q.data.take 50) ++ "..." else q

/-- Size of the intersection of the set of the first list with the
second list (Python `len(set(xs).intersection(ys))`): the number of
distinct elements of the first list appearing in the second. -/
def setIntersectSize (xs ys : List String) : Nat :=
  ((xs.dedup).filter (fun x => ys.contains x)).length

/-- Summary lookup, title validation and citation formatting (source
lines 74-124): fetch the summary of the first identifier, reject on
exception or empty record, reject when the distinct word overlap of the
profile title words with the candidate title words is below
`min 3 (number of profile title words)`, else build the candidate. -/
def summarize (env : Env) (p : QueryProfile) (pmids : List String)
    (succQuery : Option String) (calls : List (String × Nat)) : List Candidate × RunLog :=
  match pmids with
  | [] => ([], ⟨calls, [], none, succQuery⟩)
  | pm :: restIds =>
      match env.esummary pm with
      | NetResult.exc => ([], ⟨calls, pm :: restIds, some pm, succQuery⟩)
      | NetResult.ok none => ([], ⟨calls, pm :: restIds, some pm, succQuery⟩)
      | NetResult.ok (some result) =>
          let pub_title := result.title
          let pub_title_words := (tokenizeWords (toLowerList pub_title.data)).map String.mk
          let word_overlap := setIntersectSize p.title_words pub_title_words
          let required_match := min 3 p.title_words.length
          if word_overlap < required_match then ([], ⟨calls, pm :: restIds, some pm, succQuery⟩)
          else
            let all_authors_str := joinCommaSpace result.authors
            let journal := result.source
            let pub_date := result.pubdate
            let year := headSplitSpace pub_date
            let pmid := result.uid
            let pmcid := pmcidOf result.articleids
            let base := all_authors_str ++ ". " ++ pub_title ++ ". " ++ journal ++ ". " ++
              year ++ ";" ++ result.volume ++ ":" ++ result.pages ++ ". PMID: " ++ pmid
            let formatted := if pmcid ≠ "" then base ++ ". PMCID: " ++ pmcid else base
            ([{ pmid := pmid
                pmcid := pmcid
                formatted := formatted
                title := pub_title
                authors := all_authors_str
                source := journal
                date := pub_date
                strategy := if p.doi.isSome then "DOI" else truncateQuery (succQuery.getD "") }],
             ⟨calls, pm :: restIds, some pm, succQuery⟩)

/-- One full run of the search for a profile: identifier selection then
summary, validation and formatting, with the run log. -/
def runSearch (env : Env) (p : QueryProfile) (retmax : Nat) : List Candidate × RunLog :=
  let s := selectPmids env p retmax
  summarize env p s.1 s.2.1 s.2.2

/-- `search_pubmed_api` (source lines 7-124): extract the profile from
the raw reference, then run the cascade and validation. -/
def search_pubmed_api (env : Env) (reference : String) (retmax : Nat) : List Candidate :=
  (runSearch env (extractProfile reference) retmax).1

/-- `batch_search_pubmed_api` (source lines 127-133): one outcome per
reference, the single candidate or `none`; the inter-call delay is a
pure throttle and has no value-level effect. -/
def batch_search_pubmed_api (env : Env) (reference_group : List String) : List (Option Candidate) :=
  reference_group.map (fun ref => (search_pubmed_api env ref 3).head?)

/-- A matched reference (source lines 206-209): the candidate annotated
with the original reference text and number. -/
structure MatchedResult where
  number : String
  original_ref : String
  result : Candidate
deriving DecidableEq

/-- One step of the partition loop of `main` (source lines 204-211). -/
def partitionStep (acc : List MatchedResult × List (String × String))
    (x : (String × String) × Option Candidate) : List MatchedResult × List (String × String) :=
  match x with
  | ((number, ref), some result) => (acc.1 ++ [⟨number, ref, result⟩], acc.2)
  | ((number, ref), none) => (acc.1, acc.2 ++ [(number, ref)])

/-- Process one group of size at most three (source lines 200-211). -/
def processGroup (env : Env) (group : List (String × String))
    (acc : List MatchedResult × List (String × String)) :
    List MatchedResult × List (String × String) :=
  (group.zip (batch_search_pubmed_api env (group.map Prod.snd))).foldl partitionStep acc

/-- The grouped loop of `main` (source line 199). -/
def processGroups (env : Env) : List (List (String × String)) →
    List MatchedResult × List (String × String) → List MatchedResult × List (String × String)
  | [], acc => acc
  | g :: gs, acc => processGroups env gs (processGroup env g acc)

/-- Python `references[i:i+3]` slicing over `range(0, len, 3)`. -/
def chunk3 {α : Type} : List α → List (List α)
  | [] => []
  | a :: b :: c :: rest => [a, b, c] :: chunk3 rest
  | l => [l]

/-- The batch orchestrator core of `main` (source lines 193-216). -/
def processRefs (env : Env) (refs : List (String × String)) :
    List MatchedResult × List (String × String) :=
  processGroups env (chunk3 refs) ([], [])

/-- The user-visible outcome of one press of the match button
(source lines 182-216). -/
inductive MainOutcome where
  | warnNoInput : MainOutcome
  | errNoReferences : MainOutcome
  | done : List MatchedResult → List (String × String) → MainOutcome
deriving DecidableEq

/-- The match-button handler of `main` (source lines 182-216): empty
text warns, zero extracted references errors, else the partition. -/
def pubmedMain (env : Env) (reference_text : String) : MainOutcome :=
  if reference_text = "" then MainOutcome.warnNoInput
  else
    let references := extract_references reference_text
    if references.length = 0 then MainOutcome.errNoReferences
    else
      let r := processRefs env references
      MainOutcome.done r.1 r.2

/-! ### Concrete environments and profiles used by closed instances -/

/-- Environment whose search capability finds nothing and whose summary
capability returns an empty record. -/
def envTriv : Env :=
  ⟨fun _ _ => NetResult.ok [], fun _ => NetResult.ok none⟩

/-- Profile with a DOI only. -/
def pC1 : QueryProfile :=
  ⟨some "10.1000/xyz", "", [], "", "", ""⟩

/-- Environment where only the exact DOI lookup with retmax 1 succeeds. -/
def envC1 : Env :=
  ⟨fun q k => if q = "10.1000/xyz" ∧ k = 1 then NetResult.ok ["7"] else NetResult.ok [],
   fun _ => NetResult.ok none⟩

/-- Profile whose title words are deep, learning, proteins. -/
def pC2 : QueryProfile :=
  ⟨none, "deep learning proteins", ["deep", "learning", "proteins"], "", "", ""⟩

/-- Summary record whose title shares only the word deep with `pC2`. -/
def srC2 : SummaryRecord :=
  ⟨"Deep neural networks", ["Smith J"], "Nature", "2020 Jan", "1", "1-2", "5", []⟩

/-- Environment where the title-alone strategy of `pC2` finds `srC2`. -/
def envC2 : Env :=
  ⟨fun q _ => if q = "deep learning proteins" then NetResult.ok ["5"] else NetResult.ok [],
   fun i => if i = "5" then NetResult.ok (some srC2) else NetResult.exc⟩

/-- Profile with a DOI and no extracted title. -/
def pC2w : QueryProfile :=
  ⟨some "10.9/q", "", [], "", "", ""⟩

/-- Summary record with an arbitrary title. -/
def srC2w : SummaryRecord :=
  ⟨"Anything here", [], "", "", "", "", "9", []⟩

/-- Environment where the DOI lookup of `pC2w` finds `srC2w`. -/
def envC2w : Env :=
  ⟨fun q _ => if q = "10.9/q" then NetResult.ok ["9"] else NetResult.ok [],
   fun i => if i = "9" then NetResult.ok (some srC2w) else NetResult.exc⟩

/-- Profile with both a DOI and title words. -/
def pC4 : QueryProfile :=
  ⟨some "10.1000/broken", "alpha beta gamma", ["alpha", "beta", "gamma"], "", "", ""⟩

/-- Summary record whose title contains all title words of `pC4`. -/
def srC4 : SummaryRecord :=
  ⟨"Alpha beta gamma delta", ["Smith J"], "Nature", "2020 Jan", "1", "1-2", "11", []⟩

/-- Environment where the DOI search of `pC4` returns zero identifiers
and the title-alone strategy succeeds. -/
def envC4 : Env :=
  ⟨fun q _ => if q = "alpha beta gamma" then NetResult.ok ["11"] else NetResult.ok [],
   fun i => if i = "11" then NetResult.ok (some srC4) else NetResult.exc⟩

/-- Profile without a DOI and with the single title word tt. -/
def pC4w : QueryProfile :=
  ⟨none, "tt", ["tt"], "", "", ""⟩

/-- Summary record matched by the title-alone strategy of `pC4w`. -/
def srC4w : SummaryRecord :=
  ⟨"Tt", ["A"], "J", "2020", "1", "2", "3", [("pmc", "PMC1")]⟩

/-- Environment where the title-alone strategy of `pC4w` finds `srC4w`. -/
def envC4w : Env :=
  ⟨fun q _ => if q = "tt" then NetResult.ok ["3"] else NetResult.ok [],
   fun i => if i = "3" then NetResult.ok (some srC4w) else NetResult.exc⟩

/-- The candidate built from `srC4w` by the title-alone strategy. -/
def candC4w : Candidate :=
  ⟨"3", "PMC1", "A. Tt. J. 2020;1:2. PMID: 3. PMCID: PMC1", "Tt", "A", "J", "2020", "tt"⟩

/-- Profile with a DOI and title words alpha, beta, gamma. -/
def pC10 : QueryProfile :=
  ⟨some "10.2/z", "alpha beta gamma", ["alpha", "beta", "gamma"], "", "", ""⟩

/-- Summary record whose title shares no word with `pC10`. -/
def srC10 : SummaryRecord :=
  ⟨"Unrelated title entirely", ["Doe A"], "Science", "2019", "2", "3-4", "42", []⟩

/-- Environment where the DOI search of `pC10` finds `srC10`. -/
def envC10 : Env :=
  ⟨fun q _ => if q = "10.2/z" then NetResult.ok ["42"] else NetResult.ok [],
   fun i => if i = "42" then NetResult.ok (some srC10) else NetResult.exc⟩

/-- Environment where every external call raises. -/
def envExc : Env :=
  ⟨fun _ _ => NetResult.exc, fun _ => NetResult.exc⟩

/-- Profile without a DOI and with the single title word qq. -/
def pC9 : QueryProfile :=
  ⟨none, "qq", ["qq"], "", "", ""⟩

/-! ### Concrete evaluations of the embedding -/

example : (extractProfile "Smith J. Deep learning for proteins. Nature 2020;10:1-5. doi:10.1038/s41586-020-1234-5").doi = some "10.1038/s41586-020-1234-5" := by decide

example : (extractProfile "Smith J. Deep learning for proteins. Nature 2020;10:1-5.").raw_title = "Deep learning for proteins" := by decide

example : (extractProfile "Smith J. Deep learning for proteins. Nature 2020;10:1-5.").title_words = ["deep", "learning", "for", "proteins"] := by decide

example : (extractProfile "Smith J. Deep learning for proteins. Nature 2020;10:1-5.").year = "2020" := by decide

example : (extractProfile "Smith J. Deep learning for proteins. Nature 2020;10:1-5.").first_author = "smith" := by decide

example : (extractProfile "Smith J. Deep learning for proteins. Nature 2020;10:1-5.").journal = "nature" := by decide

example : extract_references "1. Smith J. A study of X. Nature. 2020;1:1-2.\n2. Doe A. Another study. Science. 2019;2:3-4." =
    [("1", "Smith J. A study of X. Nature. 2020;1:1-2."),
     ("2", "Doe A. Another study. Science. 2019;2:3-4.")] := by decide

example : extract_references "Smith J. 2020\nDoe A. 2019" =
    [("1", "Smith J. 2020"), ("2", "Doe A. 2019")] := by decide

example : extract_references "pro-\ntein" = [("1", "pro-tein")] := by decide

example : extract_references "  \n \t " = [] := by decide

example : extract_references "References\n1. Foo bar. 2020" = [("1", "Foo bar. 2020")] := by decide

/-! ### Helper lemmas about the search model -/

theorem summarize_calls (env : Env) (p : QueryProfile) (pmids : List String)
    (q : Option String) (calls : List (String × Nat)) :
    (summarize env p pmids q calls).2.calls = calls := by
  cases pmids with
  | nil => rfl
  | cons pm rest =>
      simp only [summarize]
      cases env.esummary pm with
      | exc => rfl
      | ok o =>
          cases o with
          | none => rfl
          | some sr =>
              dsimp only
              split <;> rfl

theorem summarize_succQuery (env : Env) (p : QueryProfile) (pmids : List String)
    (q : Option String) (calls : List (String × Nat)) :
    (summarize env p pmids q calls).2.succQuery = q := by
  cases pmids with
  | nil => rfl
  | cons pm rest =>
      simp only [summarize]
      cases env.esummary pm with
      | exc => rfl
      | ok o =>
          cases o with
          | none => rfl
          | some sr =>
              dsimp only
              split <;> rfl

theorem summarize_fetched (env : Env) (p : QueryProfile) (pmids : List String)
    (q : Option String) (calls : List (String × Nat)) :
    (summarize env p pmids q calls).2.fetched = pmids.head? := by
  cases pmids with
  | nil => rfl
  | cons pm rest =>
      simp only [summarize]
      cases env.esummary pm with
      | exc => rfl
      | ok o =>
          cases o with
          | none => rfl
          | some sr =>
              dsimp only
              split <;> rfl

theorem summarize_found_head (env : Env) (p : QueryProfile) (pmids : List String)
    (q : Option String) (calls : List (String × Nat)) :
    (summarize env p pmids q calls).2.fetched = (summarize env p pmids q calls).2.found.head? := by
  cases pmids with
  | nil => rfl
  | cons pm rest =>
      simp only [summarize]
      cases env.esummary pm with
      | exc => rfl
      | ok o =>
          cases o with
          | none => rfl
          | some sr =>
              dsimp only
              split <;> rfl

theorem summarize_length_le_one (env : Env) (p : QueryProfile) (pmids : List String)
    (q : Option String) (calls : List (String × Nat)) :
    (summarize env p pmids q calls).1.length ≤ 1 := by
  cases pmids with
  | nil => simp [summarize]
  | cons pm rest =>
      simp only [summarize]
      cases env.esummary pm with
      | exc => simp
      | ok o =>
          cases o with
          | none => simp
          | some sr =>
              dsimp only
              split <;> simp

theorem runSearch_eq (env : Env) (p : QueryProfile) (rm : Nat) :
    runSearch env p rm =
      summarize env p (selectPmids env p rm).1 (selectPmids env p rm).2.1
        (selectPmids env p rm).2.2 := rfl

theorem tryStrategies_calls (env : Env) (rm : Nat) (opts : List (Option String)) :
    (tryStrategies env rm opts).2.2 = cascadeCalls env rm (opts.filterMap id) := by
  induction opts with
  | nil => rfl
  | cons o rest ih =>
      cases o with
      | none => simpa [tryStrategies, List.filterMap_cons] using ih
      | some q =>
          simp only [tryStrategies, List.filterMap_cons, id_eq, cascadeCalls]
          cases henv : env.esearch q rm with
          | exc => simp [ih]
          | ok l =>
              cases l with
              | nil => simp [ih]
              | cons x xs => simp

theorem tryStrategies_calls_retmax (env : Env) (rm : Nat) (opts : List (Option String))
    (q : String) (k : Nat) (h : (q, k) ∈ (tryStrategies env rm opts).2.2) : k = rm := by
  induction opts with
  | nil => simp [tryStrategies] at h
  | cons o rest ih =>
      cases o with
      | none => exact ih (by simpa [tryStrategies] using h)
      | some q' =>
          simp only [tryStrategies] at h
          cases henv : env.esearch q' rm with
          | exc =>
              rw [henv] at h
              rcases List.mem_cons.mp h with h1 | h1
              · exact congrArg Prod.snd h1
              · exact ih h1
          | ok l =>
              rw [henv] at h
              cases l with
              | nil =>
                  simp only [List.isEmpty_nil, if_true] at h
                  rcases List.mem_cons.mp h with h1 | h1
                  · exact congrArg Prod.snd h1
                  · exact ih h1
              | cons x xs =>
                  simp only [List.isEmpty_cons, if_false, Bool.false_eq_true] at h
                  rcases List.mem_cons.mp h with h1 | h1
                  · exact congrArg Prod.snd h1
                  · simp at h1

theorem tryStrategies_exc (env : Env) (rm : Nat)
    (h : ∀ q k, env.esearch q k = NetResult.exc) (opts : List (Option String)) :
    (tryStrategies env rm opts).1 = [] := by
  induction opts with
  | nil => rfl
  | cons o rest ih =>
      cases o with
      | none => simpa [tryStrategies] using ih
      | some q => simp [tryStrategies, h q rm, ih]

/-! ### Claim 1: the DOI-first strategy cascade -/

/-- C1: for a profile with an extracted DOI the search first performs
the exact DOI lookup with retmax 1; when that lookup returns a non-empty
identifier list it is the only search call made (no heuristic strategy
is attempted); when it returns zero identifiers the heuristic strategies
are tried in the fixed source order (absent strategies skipped by the
filterMap), stopping at the first call returning a non-empty identifier
list, as described by `cascadeCalls`. -/
theorem pubmed_claim1_cascade :
    (∀ (env : Env) (p : QueryProfile) (rm : Nat) (d : String),
      p.doi = some d → ((runSearch env p rm).2.calls).head? = some (d, 1)) ∧
    (∀ (env : Env) (p : QueryProfile) (rm : Nat) (d : String) (l : List String),
      p.doi = some d → env.esearch d 1 = NetResult.ok l → l ≠ [] →
      (runSearch env p rm).2.calls = [(d, 1)]) ∧
    (∀ (env : Env) (p : QueryProfile) (rm : Nat) (d : String),
      p.doi = some d → env.esearch d 1 = NetResult.ok [] →
      (runSearch env p rm).2.calls =
        (d, 1) :: cascadeCalls env rm ((search_strategies p).filterMap id)) := by
  refine ⟨?_, ?_, ?_⟩
  · intro env p rm d hdoi
    rw [runSearch_eq, summarize_calls]
    simp only [selectPmids, doiSearchPhase, hdoi]
    cases henv : env.esearch d 1 with
    | exc => simp
    | ok l =>
        cases l with
        | nil => simp
        | cons x xs => simp
  · intro env p rm d l hdoi henv hne
    rw [runSearch_eq, summarize_calls]
    cases l with
    | nil => exact absurd rfl hne
    | cons x xs => simp [selectPmids, doiSearchPhase, hdoi, henv]
  · intro env p rm d hdoi henv
    rw [runSearch_eq, summarize_calls]
    simp [selectPmids, doiSearchPhase, hdoi, henv, tryStrategies_calls]

/-- Witness for C1: a concrete environment where the DOI lookup of
`pC1` succeeds, so the call log is exactly the single DOI call. -/
theorem pubmed_claim1_witness :
    pC1.doi = some "10.1000/xyz" ∧
    envC1.esearch "10.1000/xyz" 1 = NetResult.ok ["7"] ∧
    (["7"] : List String) ≠ [] ∧
    (runSearch envC1 pC1 3).2.calls = [("10.1000/xyz", 1)] :=
  ⟨rfl, by decide, by decide,
    pubmed_claim1_cascade.2.1 envC1 pC1 3 "10.1000/xyz" ["7"] rfl (by decide) (by decide)⟩

/-! ### Claim 10: validation applies to the DOI path too -/

/-- C10: a candidate found through the exact DOI lookup is still
rejected when the profile has a non-empty title word set and the
distinct word overlap of the candidate title with the profile title
words is below `min 3 (number of profile title words)`. -/
theorem pubmed_claim10_doi_validation :
    ∀ (env : Env) (p : QueryProfile) (rm : Nat) (d pm : String)
      (rest : List String) (sr : SummaryRecord),
      p.doi = some d →
      env.esearch d 1 = NetResult.ok (pm :: rest) →
      env.esummary pm = NetResult.ok (some sr) →
      p.title_words ≠ [] →
      setIntersectSize p.title_words ((tokenizeWords (toLowerList sr.title.data)).map String.mk) <
        min 3 p.title_words.length →
      (runSearch env p rm).1 = [] := by
  intro env p rm d pm rest sr hdoi hse hsum hnz hlt
  have hsel : selectPmids env p rm = (pm :: rest, some d, [(d, 1)]) := by
    simp [selectPmids, doiSearchPhase, hdoi, hse]
  rw [runSearch_eq, hsel]
  simp only [summarize, hsum]
  rw [if_pos hlt]

/-- Witness for C10: the DOI search of `pC10` finds `srC10`, whose
title shares no word with the profile, and the reference is reported
unmatched. -/
theorem pubmed_claim10_witness :
    pC10.doi = some "10.2/z" ∧
    envC10.esearch "10.2/z" 1 = NetResult.ok ["42"] ∧
    envC10.esummary "42" = NetResult.ok (some srC10) ∧
    pC10.title_words ≠ [] ∧
    setIntersectSize pC10.title_words
      ((tokenizeWords (toLowerList srC10.title.data)).map String.mk) < min 3 pC10.title_words.length ∧
    (runSearch envC10 pC10 3).1 = [] :=
  ⟨rfl, by decide, by decide, by decide, by decide,
    pubmed_claim10_doi_validation envC10 pC10 3 "10.2/z" "42" [] srC10 rfl (by decide)
      (by decide) (by decide) (by decide)⟩

/-! ### Claim 2: the title-overlap validator -/

theorem summarize_ne_nil_iff (env : Env) (p : QueryProfile) (pm : String)
    (rest : List String) (q : Option String) (calls : List (String × Nat))
    (sr : SummaryRecord) (h : env.esummary pm = NetResult.ok (some sr)) :
    ((summarize env p (pm :: rest) q calls).1 ≠ [] ↔
      min 3 p.title_words.length ≤
        setIntersectSize p.title_words ((tokenizeWords (toLowerList sr.title.data)).map String.mk)) := by
  simp only [summarize, h]
  split
  next hlt => exact iff_of_false (by simp) (Nat.not_le.mpr hlt)
  next hge => exact iff_of_true (by simp) (Nat.not_lt.mp hge)

/-- C2: given that a candidate summary record was fetched, the match is
accepted (a non-empty result) exactly when the number of distinct
profile title words appearing among the lowercase word tokens of the
candidate title is at least `min 3 (number of profile title words)`;
with title words deep, learning, proteins a candidate title sharing only
the word deep is rejected (overlap 1 below threshold 3), and with zero
profile title words (threshold 0) any fetched non-empty record is
accepted. -/
theorem pubmed_claim2_validator :
    (∀ (env : Env) (p : QueryProfile) (rm : Nat) (pm : String) (sr : SummaryRecord),
      (runSearch env p rm).2.fetched = some pm →
      env.esummary pm = NetResult.ok (some sr) →
      ((runSearch env p rm).1 ≠ [] ↔
        min 3 p.title_words.length ≤
          setIntersectSize p.title_words ((tokenizeWords (toLowerList sr.title.data)).map String.mk))) ∧
    setIntersectSize ["deep", "learning", "proteins"]
      ((tokenizeWords (toLowerList "Deep neural networks".data)).map String.mk) = 1 ∧
    (runSearch envC2 pC2 3).1 = [] ∧
    (∀ (env : Env) (p : QueryProfile) (rm : Nat) (pm : String) (sr : SummaryRecord),
      p.title_words = [] →
      (runSearch env p rm).2.fetched = some pm →
      env.esummary pm = NetResult.ok (some sr) →
      (runSearch env p rm).1 ≠ []) := by
  have key : ∀ (env : Env) (p : QueryProfile) (rm : Nat) (pm : String) (sr : SummaryRecord),
      (runSearch env p rm).2.fetched = some pm →
      env.esummary pm = NetResult.ok (some sr) →
      ((runSearch env p rm).1 ≠ [] ↔
        min 3 p.title_words.length ≤
          setIntersectSize p.title_words ((tokenizeWords (toLowerList sr.title.data)).map String.mk)) := by
    intro env p rm pm sr hf hs
    rw [runSearch_eq] at hf ⊢
    rw [summarize_fetched] at hf
    cases hsel : (selectPmids env p rm).1 with
    | nil => rw [hsel] at hf; simp at hf
    | cons a rest =>
        rw [hsel] at hf
        simp only [List.head?_cons, Option.some.injEq] at hf
        subst hf
        exact summarize_ne_nil_iff env p a rest _ _ sr hs
  refine ⟨key, by decide, by decide, ?_⟩
  intro env p rm pm sr hz hf hs
  exact (key env p rm pm sr hf hs).mpr (by simp [hz])

/-- Witness for C2: the DOI-path profile `pC2w` has zero title words,
its lookup fetches record 9, and the validator accepts. -/
theorem pubmed_claim2_witness :
    (runSearch envC2w pC2w 3).2.fetched = some "9" ∧
    envC2w.esummary "9" = NetResult.ok (some srC2w) ∧
    ((runSearch envC2w pC2w 3).1 ≠ [] ↔
      min 3 pC2w.title_words.length ≤
        setIntersectSize pC2w.title_words
          ((tokenizeWords (toLowerList srC2w.title.data)).map String.mk)) :=
  ⟨by decide, by decide,
    pubmed_claim2_validator.1 envC2w pC2w 3 "9" srC2w (by decide) (by decide)⟩

/-! ### Claim 4: the strategy label -/

/-- C4 (amended): the strategy label of an accepted candidate is "DOI"
exactly when a DOI was extracted from the reference, even when the DOI
lookup itself returned zero identifiers and a heuristic strategy
produced the match; otherwise it is the successful heuristic query,
truncated for display when longer than 50 characters. -/
theorem pubmed_claim4_label :
    ∀ (env : Env) (p : QueryProfile) (rm : Nat) (c : Candidate),
      c ∈ (runSearch env p rm).1 →
      c.strategy = if p.doi.isSome then "DOI"
        else truncateQuery (((runSearch env p rm).2.succQuery).getD "") := by
  intro env p rm c hc
  rw [runSearch_eq] at hc ⊢
  rw [summarize_succQuery]
  generalize (selectPmids env p rm).2.1 = q at hc ⊢
  cases hsel : (selectPmids env p rm).1 with
  | nil => rw [hsel] at hc; simp [summarize] at hc
  | cons pm rest =>
      rw [hsel] at hc
      simp only [summarize] at hc
      cases hs : env.esummary pm with
      | exc => rw [hs] at hc; simp at hc
      | ok o =>
          rw [hs] at hc
          cases o with
          | none => simp at hc
          | some sr =>
              dsimp only at hc
              split at hc
              · simp at hc
              · rw [List.mem_singleton] at hc
                subst hc
                rfl

/-- Counterexample for C4: with `pC4` the DOI search returns zero
identifiers, the accepted identifier comes from the heuristic
title-alone query, yet the attached label is "DOI", not that query. -/
theorem pubmed_claim4_counterexample :
    envC4.esearch "10.1000/broken" 1 = NetResult.ok [] ∧
    (runSearch envC4 pC4 3).2.succQuery = some "alpha beta gamma" ∧
    (runSearch envC4 pC4 3).1.map Candidate.strategy = ["DOI"] ∧
    ("DOI" : String) ≠ "alpha beta gamma" := by
  decide

/-- Witness for C4: for the DOI-free profile `pC4w` the accepted
candidate's label is the successful heuristic query itself. -/
theorem pubmed_claim4_witness :
    candC4w ∈ (runSearch envC4w pC4w 3).1 ∧
    candC4w.strategy = (if pC4w.doi.isSome then "DOI"
      else truncateQuery (((runSearch envC4w pC4w 3).2.succQuery).getD "")) :=
  ⟨by decide, pubmed_claim4_label envC4w pC4w 3 candC4w (by decide)⟩

/-! ### Claims 5 and 9: error containment and batch shape -/

theorem selectPmids_nil_of_exc (env : Env) (p : QueryProfile) (rm : Nat)
    (h : ∀ q k, env.esearch q k = NetResult.exc) : (selectPmids env p rm).1 = [] := by
  cases hd : p.doi with
  | none => simp [selectPmids, doiSearchPhase, hd, tryStrategies_exc env rm h]
  | some d => simp [selectPmids, doiSearchPhase, hd, h d 1, tryStrategies_exc env rm h]

theorem runSearch_fst_nil_of_esummary_exc (env : Env) (p : QueryProfile) (rm : Nat)
    (h : ∀ i, env.esummary i = NetResult.exc) : (runSearch env p rm).1 = [] := by
  rw [runSearch_eq]
  cases hsel : (selectPmids env p rm).1 with
  | nil => rfl
  | cons pm rest => simp [summarize, h pm]

theorem batch_length (env : Env) (refs : List String) :
    (batch_search_pubmed_api env refs).length = refs.length := by
  simp [batch_search_pubmed_api]

theorem batch_getElem (env : Env) (refs : List String) (i : Nat) :
    (batch_search_pubmed_api env refs)[i]? =
      (refs[i]?).map (fun r => (search_pubmed_api env r 3).head?) := by
  simp [batch_search_pubmed_api]

/-- C5: an individual reference's failure is caught and becomes a plain
no-match outcome for that reference only: when every search call raises,
or every summary call raises, the reference's search returns the empty
candidate list instead of propagating the failure, and the batch always
produces one independent outcome per input reference in order. -/
theorem pubmed_claim5_containment :
    (∀ (env : Env) (ref : String) (rm : Nat),
      (∀ q k, env.esearch q k = NetResult.exc) → search_pubmed_api env ref rm = []) ∧
    (∀ (env : Env) (ref : String) (rm : Nat),
      (∀ i, env.esummary i = NetResult.exc) → search_pubmed_api env ref rm = []) ∧
    (∀ (env : Env) (refs : List String),
      (batch_search_pubmed_api env refs).length = refs.length ∧
      ∀ i : Nat, (batch_search_pubmed_api env refs)[i]? =
        (refs[i]?).map (fun r => (search_pubmed_api env r 3).head?)) := by
  refine ⟨?_, ?_, ?_⟩
  · intro env ref rm h
    show (runSearch env (extractProfile ref) rm).1 = []
    rw [runSearch_eq, selectPmids_nil_of_exc env _ rm h]
    rfl
  · intro env ref rm h
    exact runSearch_fst_nil_of_esummary_exc env _ rm h
  · intro env refs
    exact ⟨batch_length env refs, fun i => batch_getElem env refs i⟩

/-- Witness for C5: in the all-raising environment a concrete reference
search returns the empty list. -/
theorem pubmed_claim5_witness :
    (∀ q k, envExc.esearch q k = NetResult.exc) ∧
    search_pubmed_api envExc "Smith J. 2020" 3 = [] :=
  ⟨fun _ _ => rfl, pubmed_claim5_containment.1 envExc "Smith J. 2020" 3 (fun _ _ => rfl)⟩

/-- C9: the batch returns exactly one outcome per input reference, in
order, each the head of that reference's own search result; a search
returns at most one candidate; every esearch call of a run carries the
run's retmax except the DOI call, which carries retmax 1 (the batch
passes retmax 3, the source default); and the identifier passed to
esummary is exactly the head of the found identifier list. -/
theorem pubmed_claim9_shape :
    (∀ (env : Env) (refs : List String),
      (batch_search_pubmed_api env refs).length = refs.length) ∧
    (∀ (env : Env) (refs : List String) (i : Nat),
      (batch_search_pubmed_api env refs)[i]? =
        (refs[i]?).map (fun r => (search_pubmed_api env r 3).head?)) ∧
    (∀ (env : Env) (ref : String) (rm : Nat), (search_pubmed_api env ref rm).length ≤ 1) ∧
    (∀ (env : Env) (p : QueryProfile) (rm : Nat) (q : String) (k : Nat),
      (q, k) ∈ (runSearch env p rm).2.calls → k = rm ∨ (p.doi = some q ∧ k = 1)) ∧
    (∀ (env : Env) (p : QueryProfile) (rm : Nat),
      (runSearch env p rm).2.fetched = ((runSearch env p rm).2.found).head?) := by
  refine ⟨fun env refs => batch_length env refs,
          fun env refs i => batch_getElem env refs i, ?_, ?_, ?_⟩
  · intro env ref rm
    show (runSearch env (extractProfile ref) rm).1.length ≤ 1
    rw [runSearch_eq]
    exact summarize_length_le_one env _ _ _ _
  · intro env p rm q k hmem
    rw [runSearch_eq, summarize_calls] at hmem
    cases hd : p.doi with
    | none =>
        simp only [selectPmids, doiSearchPhase, hd, List.isEmpty_nil, if_true,
          List.nil_append] at hmem
        exact Or.inl (tryStrategies_calls_retmax env rm _ q k hmem)
    | some d =>
        simp only [selectPmids, doiSearchPhase, hd] at hmem
        cases he : env.esearch d 1 with
        | exc =>
            rw [he] at hmem
            simp only [List.isEmpty_nil, if_true, List.singleton_append] at hmem
            rcases List.mem_cons.mp hmem with h1 | h1
            · injection h1 with hq hk
              subst hq
              subst hk
              exact Or.inr ⟨rfl, rfl⟩
            · exact Or.inl (tryStrategies_calls_retmax env rm _ q k h1)
        | ok l =>
            rw [he] at hmem
            cases l with
            | nil =>
                simp only [List.isEmpty_nil, if_true, List.singleton_append] at hmem
                rcases List.mem_cons.mp hmem with h1 | h1
                · injection h1 with hq hk
                  subst hq
                  subst hk
                  exact Or.inr ⟨rfl, rfl⟩
                · exact Or.inl (tryStrategies_calls_retmax env rm _ q k h1)
            | cons x xs =>
                simp only [List.isEmpty_cons, Bool.false_eq_true, if_false] at hmem
                have h1 := List.mem_singleton.mp hmem
                injection h1 with hq hk
                subst hq
                subst hk
                exact Or.inr ⟨rfl, rfl⟩
  · intro env p rm
    rw [runSearch_eq]
    exact summarize_found_head env _ _ _ _

/-- Witness for C9: the single heuristic call of `pC9` in the trivial
environment carries retmax 3. -/
theorem pubmed_claim9_witness :
    ("qq", 3) ∈ (runSearch envTriv pC9 3).2.calls ∧
    (3 = 3 ∨ (pC9.doi = some "qq" ∧ 3 = 1)) :=
  ⟨by decide, pubmed_claim9_shape.2.2.2.1 envTriv pC9 3 "qq" 3 (by decide)⟩

/-! ### Claim 3: the matched/unmatched partition -/

theorem zip_self_map {α β : Type} (f : α → β) (l : List α) :
    l.zip (l.map f) = l.map (fun x => (x, f x)) := by
  induction l with
  | nil => rfl
  | cons a rest ih => simp [ih]

theorem batch_map_snd (env : Env) (g : List (String × String)) :
    batch_search_pubmed_api env (g.map Prod.snd) =
      g.map (fun r => (search_pubmed_api env r.2 3).head?) := by
  simp [batch_search_pubmed_api, List.map_map]

theorem foldl_partition (k : String → Option Candidate) :
    ∀ (g : List (String × String)) (m : List MatchedResult) (u : List (String × String)),
      (g.map (fun r => (r, k r.2))).foldl partitionStep (m, u) =
        (m ++ g.filterMap (fun r => (k r.2).map (fun c => MatchedResult.mk r.1 r.2 c)),
         u ++ g.filter (fun r => (k r.2).isNone)) := by
  intro g
  induction g with
  | nil => intro m u; simp
  | cons r rest ih =>
      intro m u
      obtain ⟨n, t⟩ := r
      cases hk : k t with
      | none =>
          simp only [List.map_cons, List.foldl_cons, partitionStep, hk,
            List.filterMap_cons, List.filter_cons, Option.map_none', Option.isNone_none]
          rw [ih]
          simp
      | some c =>
          simp only [List.map_cons, List.foldl_cons, partitionStep, hk,
            List.filterMap_cons, List.filter_cons, Option.map_some', Option.isNone_some]
          rw [ih]
          simp

theorem processGroup_spec (env : Env) (g : List (String × String))
    (m : List MatchedResult) (u : List (String × String)) :
    processGroup env g (m, u) =
      (m ++ g.filterMap (fun r =>
          ((search_pubmed_api env r.2 3).head?).map (fun c => MatchedResult.mk r.1 r.2 c)),
       u ++ g.filter (fun r => ((search_pubmed_api env r.2 3).head?).isNone)) := by
  unfold processGroup
  rw [batch_map_snd, zip_self_map]
  exact foldl_partition (fun t => (search_pubmed_api env t 3).head?) g m u

theorem processGroups_spec (env : Env) :
    ∀ (gs : List (List (String × String))) (m : List MatchedResult)
      (u : List (String × String)),
      processGroups env gs (m, u) =
        (m ++ gs.flatten.filterMap (fun r =>
            ((search_pubmed_api env r.2 3).head?).map (fun c => MatchedResult.mk r.1 r.2 c)),
         u ++ gs.flatten.filter (fun r => ((search_pubmed_api env r.2 3).head?).isNone)) := by
  intro gs
  induction gs with
  | nil => intro m u; simp [processGroups]
  | cons g rest ih =>
      intro m u
      show processGroups env rest (processGroup env g (m, u)) = _
      rw [processGroup_spec, ih]
      simp [List.filterMap_append, List.filter_append]

theorem chunk3_join_aux {α : Type} :
    ∀ (n : Nat) (l : List α), l.length ≤ n → (chunk3 l).flatten = l := by
  intro n
  induction n with
  | zero =>
      intro l h
      cases l with
      | nil => rfl
      | cons a rest => simp at h
  | succ n ih =>
      intro l h
      match l with
      | [] => rfl
      | [a] => rfl
      | [a, b] => rfl
      | a :: b :: c :: rest =>
          have hr : rest.length ≤ n := by
            simp only [List.length_cons] at h
            omega
          simp only [chunk3, List.flatten]
          rw [ih rest hr]
          rfl

theorem chunk3_join {α : Type} (l : List α) : (chunk3 l).flatten = l :=
  chunk3_join_aux l.length l le_rfl

theorem processRefs_spec (env : Env) (refs : List (String × String)) :
    processRefs env refs =
      (refs.filterMap (fun r =>
          ((search_pubmed_api env r.2 3).head?).map (fun c => MatchedResult.mk r.1 r.2 c)),
       refs.filter (fun r => ((search_pubmed_api env r.2 3).head?).isNone)) := by
  unfold processRefs
  rw [processGroups_spec, chunk3_join]
  simp

theorem filterMap_key (k : String → Option Candidate) :
    ∀ refs : List (String × String),
      (refs.filterMap (fun r => (k r.2).map (fun c => MatchedResult.mk r.1 r.2 c))).map
          (fun m => (m.number, m.original_ref)) =
        refs.filter (fun r => (k r.2).isSome) := by
  intro refs
  induction refs with
  | nil => rfl
  | cons r rest ih =>
      cases hk : k r.2 with
      | none => simp [List.filterMap_cons, List.filter_cons, hk, ih]
      | some c => simp [List.filterMap_cons, List.filter_cons, hk, ih]

theorem filter_some_none_length (k : String → Option Candidate) :
    ∀ refs : List (String × String),
      (refs.filter (fun r => (k r.2).isSome)).length +
        (refs.filter (fun r => (k r.2).isNone)).length = refs.length := by
  intro refs
  induction refs with
  | nil => rfl
  | cons r rest ih =>
      cases hk : k r.2 with
      | none =>
          simp only [List.filter_cons, hk, Option.isSome_none, Option.isNone_none,
            Bool.false_eq_true, if_false, if_true, List.length_cons]
          omega
      | some c =>
          simp only [List.filter_cons, hk, Option.isSome_some, Option.isNone_some,
            Bool.false_eq_true, if_false, if_true, List.length_cons]
          omega

/-- C3: the matched and unmatched collections of the batch orchestrator
form an order-preserving partition of the segmented input: the matched
collection carries, in input order, exactly the references whose search
found a candidate; the unmatched collection carries, in input order,
exactly the others; and the two sizes add up to the input size. -/
theorem pubmed_claim3_partition :
    ∀ (env : Env) (refs : List (String × String)),
      (processRefs env refs).1.map (fun m => (m.number, m.original_ref)) =
        refs.filter (fun r => ((search_pubmed_api env r.2 3).head?).isSome) ∧
      (processRefs env refs).2 =
        refs.filter (fun r => ((search_pubmed_api env r.2 3).head?).isNone) ∧
      (processRefs env refs).1.length + (processRefs env refs).2.length = refs.length := by
  intro env refs
  rw [processRefs_spec]
  refine ⟨filterMap_key (fun t => (search_pubmed_api env t 3).head?) refs, rfl, ?_⟩
  have hm := congrArg List.length (filterMap_key (fun t => (search_pubmed_api env t 3).head?) refs)
  rw [List.length_map] at hm
  rw [hm]
  exact filter_some_none_length (fun t => (search_pubmed_api env t 3).head?) refs

/-! ### Claim 6: the fallback parse -/

theorem numberRefs_length : ∀ (n : Nat) (l : List (List Char)),
    (numberRefs n l).length = l.length := by
  intro n l
  induction l generalizing n with
  | nil => rfl
  | cons r rest ih => simp [numberRefs, ih]

theorem numberRefs_map_snd : ∀ (n : Nat) (l : List (List Char)),
    (numberRefs n l).map Prod.snd = l.map String.mk := by
  intro n l
  induction l generalizing n with
  | nil => rfl
  | cons r rest ih => simp [numberRefs, ih]

theorem numberRefs_map_fst : ∀ (l : List (List Char)) (n : Nat),
    (numberRefs n l).map Prod.fst = (List.range l.length).map (fun i => toString (i + n)) := by
  intro l
  induction l with
  | nil => intro n; rfl
  | cons r rest ih =>
      intro n
      simp only [numberRefs, List.map_cons, List.length_cons, List.range_succ_eq_map,
        List.map_map, Nat.zero_add]
      rw [ih (n + 1)]
      refine congrArg₂ List.cons rfl ?_
      refine List.map_congr_left ?_
      intro i hi
      show toString (i + (n + 1)) = toString (Nat.succ i + n)
      refine congrArg toString ?_
      omega

/-- C6: when no ordinal-delimited entry is found in the normalized
text, the fallback parse is used: the references are exactly the
non-blank stripped lines, in line order, and the labels are the
consecutive decimal numbers starting at 1. -/
theorem pubmed_claim6_fallback :
    ∀ text : String, findOrdinal (normalizeText text) = [] →
      extract_references text =
        numberRefs 1 (((splitOnNl (normalizeText text)).map pyStrip).filter (fun r => !r.isEmpty)) ∧
      (extract_references text).map Prod.fst =
        (List.range (extract_references text).length).map (fun i => toString (i + 1)) ∧
      (extract_references text).map Prod.snd =
        ((((splitOnNl (normalizeText text)).map pyStrip).filter (fun r => !r.isEmpty)).map String.mk) := by
  intro text h
  have he : extract_references text =
      numberRefs 1 (((splitOnNl (normalizeText text)).map pyStrip).filter (fun r => !r.isEmpty)) := by
    unfold extract_references
    simp only [h, List.isEmpty_nil, if_true]
  refine ⟨he, ?_, ?_⟩
  · rw [he, numberRefs_map_fst, numberRefs_length]
  · rw [he, numberRefs_map_snd]

/-- Witness for C6: a two-line text with no ordinal pattern segments
into two references numbered 1 and 2 carrying the two lines. -/
theorem pubmed_claim6_witness :
    findOrdinal (normalizeText "Smith J. 2020\nDoe A. 2019") = [] ∧
    extract_references "Smith J. 2020\nDoe A. 2019" =
      [("1", "Smith J. 2020"), ("2", "Doe A. 2019")] := by
  have h : findOrdinal (normalizeText "Smith J. 2020\nDoe A. 2019") = [] := by decide
  refine ⟨h, ?_⟩
  rw [(pubmed_claim6_fallback "Smith J. 2020\nDoe A. 2019" h).1]
  decide

/-! ### Claim 7: blank input -/

theorem isPySpace_not_digit (c : Char) (h : isPySpace c = true) : isPyDigit c = false := by
  simp only [isPySpace, Bool.or_eq_true, decide_eq_true_eq] at h
  rcases h with ((((h | h) | h) | h) | h) | h <;> subst h <;> rfl

theorem isPySpace_not_lower (c : Char) (h : isPySpace c = true) : isPyLower c = false := by
  simp only [isPySpace, Bool.or_eq_true, decide_eq_true_eq] at h
  rcases h with ((((h | h) | h) | h) | h) | h <;> subst h <;> rfl

theorem isPySpace_ne_hyphen (c : Char) (h : isPySpace c = true) : c ≠ '-' := by
  simp only [isPySpace, Bool.or_eq_true, decide_eq_true_eq] at h
  rcases h with ((((h | h) | h) | h) | h) | h <;> subst h <;> decide

theorem pyStrip_ws (l : List Char) (h : ∀ c ∈ l, isPySpace c = true) : pyStrip l = [] := by
  unfold pyStrip
  rw [List.dropWhile_eq_nil_iff.mpr h]
  rfl

theorem dropHeading_ws (l : List Char) (h : ∀ c ∈ l, isPySpace c = true) :
    dropHeading l = l := by
  unfold dropHeading
  rw [pyStrip_ws l h]
  rfl

theorem subHNL_no_hyphen_aux :
    ∀ (n : Nat) (l : List Char), l.length ≤ n → (∀ c ∈ l, c ≠ '-') → subHNL l = l := by
  intro n
  induction n with
  | zero =>
      intro l hl h
      cases l with
      | nil => rfl
      | cons a r => simp at hl
  | succ n ih =>
      intro l hl h
      match l with
      | [] => rfl
      | [c] => rfl
      | c :: d :: rest =>
          have hc : c ≠ '-' := h c (by simp)
          have hcond : (c = '-' && d = '\n') = false := by simp [hc]
          simp only [subHNL, hcond, Bool.false_eq_true, if_false]
          have hlen : (d :: rest).length ≤ n := by
            simp only [List.length_cons] at hl ⊢
            omega
          rw [ih (d :: rest) hlen (fun x hx => h x (List.mem_cons_of_mem c hx))]

theorem subHNL_no_hyphen (l : List Char) (h : ∀ c ∈ l, c ≠ '-') : subHNL l = l :=
  subHNL_no_hyphen_aux l.length l le_rfl h

theorem subLNL_no_lower_aux :
    ∀ (n : Nat) (l : List Char), l.length ≤ n →
      (∀ c ∈ l, isPyLower c = false) → subLNL l = l := by
  intro n
  induction n with
  | zero =>
      intro l hl h
      cases l with
      | nil => rfl
      | cons a r => simp at hl
  | succ n ih =>
      intro l hl h
      match l with
      | [] => rfl
      | [a] => rfl
      | [a, b] => rfl
      | a :: b :: c :: rest =>
          have ha : isPyLower a = false := h a (by simp)
          have hcond : (isPyLower a && b = '\n' && isPyLower c) = false := by simp [ha]
          simp only [subLNL, hcond, Bool.false_eq_true, if_false]
          have hlen : (b :: c :: rest).length ≤ n := by
            simp only [List.length_cons] at hl ⊢
            omega
          rw [ih (b :: c :: rest) hlen (fun x hx => h x (List.mem_cons_of_mem a hx))]

theorem subLNL_no_lower (l : List Char) (h : ∀ c ∈ l, isPyLower c = false) : subLNL l = l :=
  subLNL_no_lower_aux l.length l le_rfl h

theorem matchEntry_ws (l : List Char) (h : ∀ c ∈ l, isPySpace c = true) :
    matchEntry l = none := by
  cases l with
  | nil => rfl
  | cons c rest =>
      have hd : isPyDigit c = false := isPySpace_not_digit c (h c (by simp))
      simp [matchEntry, List.takeWhile_cons, hd]

theorem scanFrom_ws :
    ∀ (fuel : Nat) (l : List Char), (∀ c ∈ l, isPySpace c = true) → scanFrom fuel l = [] := by
  intro fuel
  induction fuel with
  | zero => intro l h; rfl
  | succ n ih =>
      intro l h
      cases l with
      | nil => rfl
      | cons c rest =>
          have hrest : ∀ x ∈ rest, isPySpace x = true :=
            fun x hx => h x (List.mem_cons_of_mem c hx)
          simp only [scanFrom]
          split
          · rw [matchEntry_ws rest hrest]
            exact ih rest hrest
          · exact ih rest hrest

theorem findOrdinal_ws (l : List Char) (h : ∀ c ∈ l, isPySpace c = true) :
    findOrdinal l = [] := by
  unfold findOrdinal
  rw [matchEntry_ws l h]
  exact scanFrom_ws l.length l h

theorem splitOnNlAux_subset :
    ∀ (l cur piece : List Char), piece ∈ splitOnNlAux cur l → ∀ c ∈ piece, c ∈ cur ∨ c ∈ l := by
  intro l
  induction l with
  | nil =>
      intro cur piece hp c hc
      simp only [splitOnNlAux, List.mem_singleton] at hp
      subst hp
      exact Or.inl (List.mem_reverse.mp hc)
  | cons a rest ih =>
      intro cur piece hp c hc
      simp only [splitOnNlAux] at hp
      by_cases ha : a = '\n'
      · rw [if_pos ha] at hp
        rcases List.mem_cons.mp hp with h1 | h1
        · subst h1
          exact Or.inl (List.mem_reverse.mp hc)
        · rcases ih [] piece h1 c hc with h2 | h2
          · simp at h2
          · exact Or.inr (List.mem_cons_of_mem a h2)
      · rw [if_neg ha] at hp
        rcases ih (a :: cur) piece hp c hc with h2 | h2
        · rcases List.mem_cons.mp h2 with h3 | h3
          · exact Or.inr (h3 ▸ List.mem_cons_self a rest)
          · exact Or.inl h3
        · exact Or.inr (List.mem_cons_of_mem a h2)

theorem extract_references_ws (text : String)
    (h : ∀ c ∈ text.data, isPySpace c = true) : extract_references text = [] := by
  have hhyph : ∀ c ∈ text.data, c ≠ '-' := fun c hc => isPySpace_ne_hyphen c (h c hc)
  have hlow : ∀ c ∈ text.data, isPyLower c = false := fun c hc => isPySpace_not_lower c (h c hc)
  have ht : normalizeText text = text.data := by
    unfold normalizeText
    rw [dropHeading_ws text.data h, subHNL_no_hyphen text.data hhyph,
      subLNL_no_lower text.data hlow]
  have hfilter :
      ((splitOnNl text.data).map pyStrip).filter (fun r => !r.isEmpty) = [] := by
    rw [List.filter_eq_nil_iff]
    intro x hx
    obtain ⟨piece, hpiece, rfl⟩ := List.mem_map.mp hx
    have hpw : ∀ c ∈ piece, isPySpace c = true := by
      intro c hc
      rcases splitOnNlAux_subset text.data [] piece hpiece c hc with h2 | h2
      · simp at h2
      · exact h c h2
    rw [pyStrip_ws piece hpw]
    simp
  unfold extract_references
  rw [ht]
  simp only [findOrdinal_ws text.data h, List.isEmpty_nil, if_true, hfilter]
  rfl

/-- Counterexample for C7: for the empty input text the handler returns
the distinct no-input warning, not the no-references-found outcome the
claim names. -/
theorem pubmed_claim7_counterexample :
    pubmedMain envTriv "" = MainOutcome.warnNoInput ∧
    MainOutcome.warnNoInput ≠ MainOutcome.errNoReferences := by
  refine ⟨rfl, ?_⟩
  intro h
  exact MainOutcome.noConfusion h

/-- C7 (amended): a non-empty whitespace-only input yields zero
references and the distinct no-references-found outcome; the genuinely
empty input instead yields the distinct no-input warning; neither is a
silently returned empty matched/unmatched success. -/
theorem pubmed_claim7_blank :
    ∀ (env : Env) (text : String), text ≠ "" → text.data.all isPySpace = true →
      extract_references text = [] ∧ pubmedMain env text = MainOutcome.errNoReferences := by
  intro env text hne hws
  have h : ∀ c ∈ text.data, isPySpace c = true := by
    intro c hc
    exact List.all_eq_true.mp hws c hc
  have he : extract_references text = [] := extract_references_ws text h
  refine ⟨he, ?_⟩
  unfold pubmedMain
  rw [if_neg hne, he]
  rfl

/-- Witness for C7: a single space is non-empty whitespace-only input
and produces the no-references-found outcome. -/
theorem pubmed_claim7_witness :
    (" " : String) ≠ "" ∧ (" " : String).data.all isPySpace = true ∧
    (extract_references " " = [] ∧ pubmedMain envTriv " " = MainOutcome.errNoReferences) :=
  ⟨by decide, by decide, pubmed_claim7_blank envTriv " " (by decide) (by decide)⟩

/-! ### Claim 8: hyphen-broken line continuations -/

theorem subHNL_append_no_hyphen :
    ∀ (a : List Char), (∀ c ∈ a, c ≠ '-') →
      ∀ b : List Char, subHNL (a ++ '-' :: '\n' :: b) = a ++ '-' :: subHNL b := by
  intro a
  induction a with
  | nil =>
      intro h b
      simp [subHNL]
  | cons x a' ih =>
      intro h b
      have hx : x ≠ '-' := h x (by simp)
      have hrest : ∀ c ∈ a', c ≠ '-' := fun c hc => h c (List.mem_cons_of_mem x hc)
      cases a' with
      | nil =>
          have hcond : (x = '-' && ('-' : Char) = '\n') = false := by simp [hx]
          simp only [List.nil_append, List.cons_append, subHNL, hcond,
            Bool.false_eq_true, if_false]
          simp
      | cons y a'' =>
          have hcond : (x = '-' && y = '\n') = false := by simp [hx]
          simp only [List.cons_append, subHNL, hcond, Bool.false_eq_true, if_false]
          show x :: subHNL ((y :: a'') ++ '-' :: '\n' :: b) = _
          rw [ih hrest b]
          simp

/-- Counterexample for C8: in the hyphen-broken input the hyphen is
kept, so the reference body is the hyphenated token, not the single
unbroken word the claim describes. -/
theorem pubmed_claim8_counterexample :
    extract_references "pro-\ntein" = [("1", "pro-tein")] ∧
    '-' ∈ ("pro-tein" : String).data ∧
    ("pro-tein" : String) ≠ "protein" ∧
    extract_references "pro-\ntein" ≠ [("1", "protein")] := by
  refine ⟨by decide, by decide, by decide, ?_⟩
  intro h
  exact absurd ((by decide : extract_references "pro-\ntein" = [("1", "pro-tein")]) ▸ h)
    (by decide)

/-- C8 (amended): a trailing hyphen immediately followed by a line
break has the line break removed while the hyphen is retained, joining
the two fragments into one hyphenated token; in particular the
hyphen-broken input becomes the single reference body pro-tein. -/
theorem pubmed_claim8_hyphen_join :
    (∀ (a b : List Char), (∀ c ∈ a, c ≠ '-') →
      subHNL (a ++ '-' :: '\n' :: b) = a ++ '-' :: subHNL b) ∧
    extract_references "pro-\ntein" = [("1", "pro-tein")] := by
  refine ⟨?_, by decide⟩
  intro a b h
  exact subHNL_append_no_hyphen a h b

/-- Witness for C8: the hyphen-newline pair between the fragments pro
and tein collapses to the kept hyphen. -/
theorem pubmed_claim8_witness :
    (∀ c ∈ ("pro" : String).data, c ≠ '-') ∧
    subHNL (("pro" : String).data ++ '-' :: '\n' :: ("tein" : String).data) =
      ("pro" : String).data ++ '-' :: subHNL ("tein" : String).data :=
  ⟨by decide, pubmed_claim8_hyphen_join.1 ("pro" : String).data ("tein" : String).data (by decide)⟩
